import Mathlib

/-!
Verification of the email ingestion and filtering engine of
`email_filter_dashboard.py` (Devansh7599/flikt-email-handler).

The Python source is shallowly embedded: pure helpers become Lean
functions; the IMAP session is represented by the data the code reads
from it (connect / login / select / search replies and per-message fetch
outcomes); Python exceptions become `Except` values; the Tk application
object (`EmailFilterApp`) becomes an explicit state record with a step
function over UI events.  Dates (`datetime`) are modelled as integers
(ordered points in time; for the search criteria the integer counts
days, so `timedelta(days=1)` is `+ 1`).
-/

namespace EmailDash

/-! ## Byte-level decoding

Python's codec calls (`bytes.decode`) are modelled on byte lists.  The
model covers the charsets exercised here faithfully: a strict decode
with a declared charset can raise (`UnicodeDecodeError` for bytes
invalid in the charset, `LookupError` for an unknown charset name),
while `decode('utf-8', errors='ignore')` never raises and simply drops
undecodable bytes (exact for payloads without multi-byte sequences). -/

/-! Python's `str` methods, modelled over the character list (`lower`
and `upper` per character as in ASCII; `strip` removes surrounding
whitespace; slicing counts characters, as Python slices do). -/

def pyLower (s : String) : String := String.mk (s.data.map Char.toLower)

def pyUpper (s : String) : String := String.mk (s.data.map Char.toUpper)

def pyTake (s : String) (n : Nat) : String := String.mk (s.data.take n)

def pyStrip (s : String) : String :=
  String.mk (((s.data.dropWhile Char.isWhitespace).reverse.dropWhile
      Char.isWhitespace).reverse)

def bytesToString (bs : List Nat) : String :=
  String.mk (bs.map Char.ofNat)

/-- `payload.decode('utf-8', errors='ignore')`: total, drops bad bytes. -/
def decodeUtf8Ignore (bs : List Nat) : String :=
  String.mk ((bs.filter (fun b => decide (b < 128))).map Char.ofNat)

/-- `part.decode(encoding)` with a declared charset: strict, can fail.
`ascii` rejects bytes ≥ 128 (UnicodeDecodeError); `latin-1` accepts all
bytes; an unrecognized charset name raises LookupError, as in Python. -/
def decodeStrict (enc : String) (bs : List Nat) : Except String String :=
  if enc = "ascii" then
    if bs.all (fun b => decide (b < 128)) then .ok (bytesToString bs)
    else .error "UnicodeDecodeError"
  else if enc = "latin-1" then .ok (bytesToString bs)
  else .error "LookupError"

/-! ## decode_header (email_filter_dashboard.py lines 1183-1198)

`email.header.decode_header` splits a raw header into parts, each either
already a `str` or raw bytes with an optional declared charset; that
split is the input of the embedded function. -/

inductive HeaderPart where
  | txt (s : String)
  | bytes (bs : List Nat) (enc : Option String)
deriving DecidableEq, Repr

def decodeParts : List HeaderPart → String → Except String String
  | [], acc => .ok acc
  | .txt s :: rest, acc => decodeParts rest (acc ++ s)
  | .bytes bs none :: rest, acc => decodeParts rest (acc ++ decodeUtf8Ignore bs)
  | .bytes bs (some enc) :: rest, acc =>
      match decodeStrict enc bs with
      | .error e => .error e
      | .ok d => decodeParts rest (acc ++ d)

/-- `EmailFilterApp.decode_header`.  `None` yields `""`; for each part,
bytes with a declared encoding are decoded strictly (and the exception,
if any, propagates to the caller: there is no try/except here), bytes
without one fall back to permissive utf-8. -/
def decode_header (header_value : Option (List HeaderPart)) : Except String String :=
  match header_value with
  | none => .ok ""
  | some parts => decodeParts parts ""

/-! ## extract_email_body (lines 1200-1231) -/

structure BodyPart where
  contentType : String
  payload : Option (List Nat)
deriving DecidableEq, Repr

inductive MsgBody where
  | multipart (parts : List BodyPart)
  | single (payload : Option (List Nat))
deriving DecidableEq, Repr

/-- The multipart walk: text/plain parts only, cumulative budget
`remaining`, stopping once the budget is exhausted (the source breaks
out of the loop after appending `text[:remaining]`). -/
def extractPlainParts : List BodyPart → Nat → List String
  | [], _ => []
  | p :: rest, remaining =>
    if p.contentType = "text/plain" then
      match p.payload with
      | none => extractPlainParts rest remaining
      | some bs =>
        if bs.isEmpty then extractPlainParts rest remaining
        else
          let text := decodeUtf8Ignore bs
          if text = "" then extractPlainParts rest remaining
          else if remaining ≤ text.length then [pyTake text remaining]
          else text :: extractPlainParts rest (remaining - text.length)
    else extractPlainParts rest remaining

/-- `EmailFilterApp.extract_email_body` with `MAX_LEN = 2000`.  The
whole function is wrapped in try/except in the source, but every
operation modelled here (permissive decode, slicing) is total, so the
except branch is unreachable in the model. -/
def extract_email_body (m : MsgBody) : String :=
  match m with
  | .multipart parts => String.join (extractPlainParts parts 2000)
  | .single none => ""
  | .single (some bs) =>
      if bs.isEmpty then "" else pyTake (decodeUtf8Ignore bs) 2000

/-! ## parse_sender (lines 1233-1241)

`email.utils.parseaddr` is a stdlib call; its result on the decoded
From header is part of the raw-message data (`none` models the except
branch, in which the raw header text is used for both fields). -/

def stripQuoteChars (s : String) : String :=
  String.mk (((s.data.dropWhile (fun c => c == '"')).reverse.dropWhile
      (fun c => c == '"')).reverse)

/-- `EmailFilterApp.parse_sender`: display name falls back to the
address when empty; `name.strip().strip(quote)` otherwise. -/
def parse_sender (from_header : String) (parsed : Option (String × String)) :
    String × String :=
  match parsed with
  | none => (from_header, from_header)
  | some (n, a) =>
      let name := if n = "" then a else stripQuoteChars (pyStrip n)
      (name, a)

/-! ## The normalized record and the retrieval (fetch_real_emails, lines 1078-1172)

`searchBlob` models the `_search_blob` key that `_build_search_cache`
later adds to the dict; a freshly normalized record has no such key
(`item.get` returns `None`). -/

structure EmailRec where
  name : String
  email : String
  subject : String
  body : String
  date : Int
  searchBlob : Option String := none
deriving DecidableEq, Repr

/-- Outcome of `email_message.get('Date')` followed by
`parsedate_to_datetime` and timezone normalization (lines 1121-1130):
header absent, header present but unparseable (the except branch sets
`msg_dt = None`), or a parsed local-naive timestamp. -/
inductive DateHeader where
  | absent
  | unparseable
  | parsed (d : Int)
deriving DecidableEq, Repr

/-- One fetched raw message, carrying the data points the code reads
from the stdlib email object. -/
structure RawMsg where
  date : DateHeader
  subjectHeader : Option (List HeaderPart)
  fromHeader : Option (List HeaderPart)
  fromParsed : Option (String × String)
  body : MsgBody
deriving DecidableEq, Repr

/-- `msg_dt` after lines 1121-1130: `some` only when the Date header
parsed. -/
def parsedDate (m : RawMsg) : Option Int :=
  match m.date with
  | .parsed d => some d
  | _ => none

/-- Line 1147: `body[:200] + ellipsis if len(body) > 200 else body`. -/
def bodyPreview (body : String) : String :=
  if body.length > 200 then pyTake body 200 ++ "..." else body

/-- The per-message loop body, lines 1113-1149: header decodes can
fail (and the failure propagates, there is no try/except around them);
a successful message yields exactly one record whose `date` is
`msg_dt or start_date` (a datetime is always truthy in Python, so
`or` picks `start_date` exactly when `msg_dt` is `None`). -/
def normalizeMsg (m : RawMsg) (start_date : Int) : Except String EmailRec :=
  match decode_header m.subjectHeader with
  | .error e => .error e
  | .ok subject =>
    match decode_header m.fromHeader with
    | .error e => .error e
    | .ok from_header =>
      let body := extract_email_body m.body
      let ns := parse_sender from_header m.fromParsed
      .ok { name := ns.1, email := ns.2, subject := subject,
            body := bodyPreview body,
            date := (parsedDate m).getD start_date }

/-- Outcome of `mail.fetch(email_id, ...)` plus
`email.message_from_bytes` for one message id: a failed fetch
(`status != OK` or empty data) and a failed parse both `continue`;
otherwise the raw message is processed. -/
inductive FetchItem where
  | fetchFail
  | parseFail
  | msg (m : RawMsg)
deriving DecidableEq, Repr

def isMsgItem : FetchItem → Bool
  | .msg _ => true
  | _ => false

def msgsOf (items : List FetchItem) : List RawMsg :=
  items.filterMap (fun i => match i with | .msg m => some m | _ => none)

/-- The fetch loop, lines 1110-1149: skip-and-continue for fetch/parse
failures, `Except` bind for exceptions escaping the loop body. -/
def processMessages : List FetchItem → Int → Except String (List EmailRec)
  | [], _ => .ok []
  | .fetchFail :: rest, sd => processMessages rest sd
  | .parseFail :: rest, sd => processMessages rest sd
  | .msg m :: rest, sd =>
      match normalizeMsg m sd with
      | .error e => .error e
      | .ok r =>
        match processMessages rest sd with
        | .error e => .error e
        | .ok rs => .ok (r :: rs)

/-- Lines 1096-1100: `SINCE` is the inclusive start date, `BEFORE` is
`end_date + timedelta(days=1)` (the protocol upper bound is
exclusive). -/
structure SearchCriteria where
  since : Int
  before : Int
deriving DecidableEq, Repr

def searchCriteria (start_date end_date : Int) : SearchCriteria :=
  { since := start_date, before := end_date + 1 }

/-- `emails_data.sort(key=lambda x: x.date, reverse=True)`, line 1152:
Python's sort is stable, and `reverse=True` reverses comparisons while
keeping equal keys in their original order; a stable descending
insertion sort has exactly this behavior. -/
def insertByDateDesc (r : EmailRec) : List EmailRec → List EmailRec
  | [] => [r]
  | x :: xs => if r.date < x.date then x :: insertByDateDesc r xs else r :: x :: xs

def sortByDateDesc : List EmailRec → List EmailRec
  | [] => []
  | x :: xs => insertByDateDesc x (sortByDateDesc xs)

/-- Reply of `mail.search`: `bad` models `status != OK` (the code then
raises `Exception('IMAP search failed')`), `ids` carries the message
ids together with their per-id fetch outcomes. -/
inductive SearchReply where
  | bad
  | ids (items : List FetchItem)

/-- The mail server as seen by one retrieval: what each protocol step
returns.  `connect` errors model transport failures raised by
`imaplib.IMAP4_SSL(...)` (not `imaplib.IMAP4.error`); `login` errors
model `imaplib.IMAP4.error` raised by `mail.login`; `selectOk` is the
status of `mail.select('INBOX', readonly=True)`. -/
structure ImapServer where
  connect : Except String Unit
  login : Except String Unit
  selectOk : Bool
  search : SearchCriteria → SearchReply

/-- `EmailFilterApp.fetch_real_emails`, lines 1078-1172.  The two
except handlers: `imaplib.IMAP4.error` (here: a login rejection) is
wrapped as `IMAP authentication/search error: ...`; every other
exception — transport failures, the raised select/search failures, and
any exception escaping the message loop — is wrapped as
`IMAP connection failed: ...`.  The empty-ids early return (line 1107)
and the sorted return coincide on `[]`, so both are the `ids` branch. -/
def fetch_real_emails (email_user email_pass : String) (srv : ImapServer)
    (start_date end_date : Int) : Except String (List EmailRec) :=
  if pyStrip email_user = "" ∨ pyStrip email_pass = "" then
    .error "Email and password are required when demo mode is off."
  else
    match srv.connect with
    | .error m => .error ("IMAP connection failed: " ++ m)
    | .ok _ =>
      match srv.login with
      | .error m => .error ("IMAP authentication/search error: " ++ m)
      | .ok _ =>
        if srv.selectOk then
          match srv.search (searchCriteria start_date end_date) with
          | .bad => .error ("IMAP connection failed: " ++ "IMAP search failed")
          | .ids items =>
            match processMessages items start_date with
            | .error e => .error ("IMAP connection failed: " ++ e)
            | .ok recs => .ok (sortByDateDesc recs)
        else .error ("IMAP connection failed: " ++ "Unable to select INBOX")

/-! ## Filter index (apply_search_filter lines 1740-1781,
_build_search_cache lines 1873-1883) -/

/-- Does `needle` occur as a contiguous run inside `hay`? -/
def listInfixOf (needle : List Char) : List Char → Bool
  | [] => needle.isEmpty
  | h :: t => needle.isPrefixOf (h :: t) || listInfixOf needle t

/-- Python's `needle in hay` on strings: substring containment. -/
def pyIn (needle hay : String) : Bool :=
  listInfixOf needle.data hay.data

/-- The blob stored by `_build_search_cache` (line 1881). -/
def cacheBlob (r : EmailRec) : String :=
  pyLower (r.name ++ "\n" ++ r.email ++ "\n" ++ r.subject ++ "\n" ++ r.body)

/-- The blob computed on the fly inside `matches` when `_search_blob`
is absent (lines 1766-1770). -/
def fallbackBlob (r : EmailRec) : String :=
  pyLower (r.name ++ "\n" ++ r.email ++ "\n" ++ r.subject ++ "\n" ++ r.body)

/-- `EmailFilterApp._build_search_cache`: stamps every record of the
collection with its precomputed lowercase blob.  (The except branch
that stores an empty blob is unreachable here: string formatting and
`lower` are total.) -/
def build_search_cache (l : List EmailRec) : List EmailRec :=
  l.map (fun r => { r with searchBlob := some (cacheBlob r) })

/-- The inner `matches` of `apply_search_filter` (lines 1756-1772),
taking the already stripped-and-lowercased query `q`. -/
def matchesRec (q ft : String) (r : EmailRec) : Bool :=
  if ft = "Sender" then pyIn q (pyLower r.name) || pyIn q (pyLower r.email)
  else if ft = "Subject" then pyIn q (pyLower r.subject)
  else if ft = "Body" then pyIn q (pyLower r.body)
  else
    match r.searchBlob with
    | some blob => pyIn q blob
    | none => pyIn q (fallbackBlob r)

/-! ## Error classification in the completion callback
(_on_fetch_done lines 942-972) -/

inductive ErrorDialog where
  | authFailed
  | generic
deriving DecidableEq, Repr

/-- Lines 948-960: the only classification the caller performs on a
failed retrieval is the `AUTHENTICATIONFAILED in err.upper()` test;
every other failure takes the generic branch. -/
def classifyError (err : String) : ErrorDialog :=
  if pyIn "AUTHENTICATIONFAILED" (pyUpper err) then .authFailed else .generic

/-! ## The application state machine

`EmailFilterApp`'s mutable attributes relevant to the core, plus two
bookkeeping counters for the worker threads `fetch_emails` spawns
(`inFlight`) and the completions `_on_fetch_done` receives through
`root.after` (`deliveries`). -/

structure AppState where
  fetchButtonEnabled : Bool := true
  inFlight : Nat := 0
  deliveries : Nat := 0
  emails_data : List EmailRec := []
  filtered_emails : List EmailRec := []
  lastFilter : Option String := none
  searchVar : String := ""
  filterTypeVar : String := "All"
  statusText : String := ""
  lastDialog : Option ErrorDialog := none
  dashboardOpen : Bool := false
deriving DecidableEq, Repr

def initState : AppState := {}

/-- Outcome of reading and parsing one date entry in `fetch_emails`
(lines 907-915): the empty-field check, the `strptime` except branch,
or a parsed date. -/
inductive DateField where
  | missing
  | invalid
  | date (d : Int)
deriving DecidableEq, Repr

/-- `EmailFilterApp.fetch_emails`, lines 904-940.  All three validation
failures return without touching state (a message box aside); a valid
range disables the fetch button, shows the loading state and spawns one
worker thread.  Note: nothing here checks whether a retrieval is
already in flight. -/
def fetch_emails (s : AppState) (sf ef : DateField) : AppState :=
  match sf, ef with
  | .missing, _ => s
  | _, .missing => s
  | .invalid, _ => s
  | _, .invalid => s
  | .date sd, .date ed =>
    if sd > ed then s
    else { s with statusText := "Fetching emails...",
                  fetchButtonEnabled := false,
                  inFlight := s.inFlight + 1 }

/-- `EmailFilterApp._on_fetch_done`, lines 942-972: always re-enables
the fetch button; on error it only classifies the failure and sets the
status label; on success it installs the collection, rebuilds the
search cache and resets `filtered_emails` to the full collection.
`_last_filter` is not touched on either path. -/
def on_fetch_done (s : AppState) (data : List EmailRec) (error : Option String)
    (status : String) : AppState :=
  let s1 := { s with fetchButtonEnabled := true }
  match error with
  | some e => { s1 with statusText := "Error occurred",
                        lastDialog := some (classifyError e) }
  | none =>
      let ed := build_search_cache data
      { s1 with emails_data := ed, filtered_emails := ed, statusText := status }

/-- `EmailFilterApp.apply_search_filter`, lines 1740-1781, on the
state: strip+lowercase the query, skip everything when the
`query|filter_type` key equals `_last_filter`, otherwise record the key
and recompute `filtered_emails` (the full collection for an empty
query). -/
def apply_search_filter (s : AppState) (query : String) : AppState :=
  let q := pyLower (pyStrip query)
  let ft := s.filterTypeVar
  let key := q ++ "|" ++ ft
  if s.lastFilter = some key then s
  else
    let s1 := { s with lastFilter := some key }
    if q = "" then { s1 with filtered_emails := s1.emails_data }
    else { s1 with filtered_emails := s1.emails_data.filter (matchesRec q ft) }

/-- The scope values of the read-only combobox (line 1281-1285). -/
inductive Scope where
  | all
  | sender
  | subjectScope
  | bodyScope
deriving DecidableEq, Repr

def Scope.str : Scope → String
  | .all => "All"
  | .sender => "Sender"
  | .subjectScope => "Subject"
  | .bodyScope => "Body"

/-- The UI events that drive the mutable state.  `clickFetch` is a
click on the fetch button (a disabled ttk button does not invoke its
command); `keyFetch` is any of the root-level key bindings
`root.bind(Return, ...)` (line 56) and `root.bind(Control-r, ...)`
(line 198), which call `fetch_emails` directly and are not gated by the
button state.  `workerDone` is one worker thread finishing and its
single `root.after(0, ...)` delivery of `_on_fetch_done` being drained.
`search` is the debounced live search / Return in the search entry;
`setFilterType` is a combobox selection (which re-applies the filter
with the current query, line 1286); `openDashboard` models
`open_dashboard` + `create_dashboard_screen` (lines 1243-1394). -/
inductive Event where
  | clickFetch (sf ef : DateField)
  | keyFetch (sf ef : DateField)
  | workerDone (data : List EmailRec) (error : Option String) (status : String)
  | search (query : String)
  | setFilterType (sc : Scope)
  | refresh
  | openDashboard

def step (s : AppState) : Event → AppState
  | .clickFetch sf ef => if s.fetchButtonEnabled then fetch_emails s sf ef else s
  | .keyFetch sf ef => fetch_emails s sf ef
  | .workerDone data error status =>
      { on_fetch_done s data error status with
          inFlight := s.inFlight - 1, deliveries := s.deliveries + 1 }
  | .search query => apply_search_filter { s with searchVar := query } query
  | .setFilterType sc => apply_search_filter { s with filterTypeVar := sc.str } s.searchVar
  | .refresh => if s.dashboardOpen then apply_search_filter s s.searchVar else s
  | .openDashboard =>
      if s.emails_data.isEmpty then s
      else if s.dashboardOpen then s
      else { s with dashboardOpen := true, filtered_emails := s.emails_data,
                    filterTypeVar := "All", searchVar := "" }

/-- States the application can actually be in. -/
inductive Reachable : AppState → Prop where
  | init : Reachable initState
  | step (s : AppState) (e : Event) : Reachable s → Reachable (step s e)

/-! ## Detail view (on_email_double_click, lines 1492-1634)

The detail window looks the record up in the active list by matching
the name, address and subject columns of the clicked row, then displays
that record's `body` field (lines 1499-1508 and 1585-1589); when no
record matches it falls back to the body cell text of the row
(`values[5]`). -/

def on_email_double_click_body (active_list : List EmailRec)
    (values : List String) : String :=
  match active_list.find? (fun r =>
      r.name == values.getD 0 "" && r.email == values.getD 1 ""
        && r.subject == values.getD 4 "") with
  | some r => r.body
  | none => values.getD 5 "No body content available."

/-! ## Lemmas about the descending stable sort -/

/-- Sorted by timestamp descending: every element is ≥ all later ones. -/
def SortedDesc (l : List EmailRec) : Prop :=
  l.Pairwise (fun a b => b.date ≤ a.date)

theorem mem_insertByDateDesc {y r : EmailRec} {l : List EmailRec} :
    y ∈ insertByDateDesc r l ↔ y = r ∨ y ∈ l := by
  induction l with
  | nil => simp [insertByDateDesc]
  | cons x xs ih =>
    by_cases hlt : r.date < x.date
    · simp only [insertByDateDesc, if_pos hlt, List.mem_cons, ih]
      tauto
    · simp only [insertByDateDesc, if_neg hlt, List.mem_cons]

theorem sortedDesc_insertByDateDesc {r : EmailRec} {l : List EmailRec}
    (h : SortedDesc l) : SortedDesc (insertByDateDesc r l) := by
  induction l with
  | nil => simp [insertByDateDesc, SortedDesc]
  | cons x xs ih =>
    rcases List.pairwise_cons.mp h with ⟨hx, hxs⟩
    by_cases hlt : r.date < x.date
    · rw [insertByDateDesc, if_pos hlt]
      refine List.pairwise_cons.mpr ⟨?_, ih hxs⟩
      intro y hy
      rcases mem_insertByDateDesc.mp hy with rfl | hy
      · exact le_of_lt hlt
      · exact hx y hy
    · rw [insertByDateDesc, if_neg hlt]
      refine List.pairwise_cons.mpr ⟨?_, h⟩
      intro y hy
      rcases List.mem_cons.mp hy with rfl | hy
      · exact not_lt.mp hlt
      · exact le_trans (hx y hy) (not_lt.mp hlt)

theorem sortedDesc_sortByDateDesc (l : List EmailRec) :
    SortedDesc (sortByDateDesc l) := by
  induction l with
  | nil => simp [sortByDateDesc, SortedDesc]
  | cons x xs ih => exact sortedDesc_insertByDateDesc ih

theorem filter_insertByDateDesc (t : Int) {r : EmailRec} {l : List EmailRec}
    (h : SortedDesc l) :
    (insertByDateDesc r l).filter (fun x => x.date == t) =
      if r.date = t then r :: l.filter (fun x => x.date == t)
      else l.filter (fun x => x.date == t) := by
  induction l with
  | nil =>
    by_cases ht : r.date = t <;> simp [insertByDateDesc, List.filter_cons, ht]
  | cons x xs ih =>
    rcases List.pairwise_cons.mp h with ⟨_, hxs⟩
    by_cases hlt : r.date < x.date
    · rw [insertByDateDesc, if_pos hlt, List.filter_cons, List.filter_cons,
        ih hxs]
      by_cases ht : r.date = t
      · have hx : (x.date == t) = false := by
          refine beq_eq_false_iff_ne.mpr ?_
          intro hxt
          rw [ht] at hlt
          exact absurd hxt (ne_of_gt hlt)
        simp [hx, ht]
      · simp [ht]
    · rw [insertByDateDesc, if_neg hlt, List.filter_cons]
      by_cases ht : r.date = t <;> simp [ht, List.filter_cons]

theorem filter_sortByDateDesc (t : Int) (l : List EmailRec) :
    (sortByDateDesc l).filter (fun x => x.date == t) =
      l.filter (fun x => x.date == t) := by
  induction l with
  | nil => rfl
  | cons x xs ih =>
    simp only [sortByDateDesc]
    rw [filter_insertByDateDesc t (sortedDesc_sortByDateDesc xs), ih,
      List.filter_cons]
    by_cases ht : x.date = t <;> simp [ht]

/-! ## Reachability invariant for the filter state

`_last_filter` caches the last `query|filter_type` key and lets
`apply_search_filter` return without recomputation.  The invariant that
makes the empty-query contract hold across this early return: whenever
the remembered key records an empty query, the visible collection is
already the full one. -/

def validScopes : List String := ["All", "Sender", "Subject", "Body"]

theorem pipe_not_mem_validScopes {sc : String} (h : sc ∈ validScopes) :
    ¬ ('|' ∈ sc.data) := by
  have h4 : sc = "All" ∨ sc = "Sender" ∨ sc = "Subject" ∨ sc = "Body" := by
    simpa [validScopes] using h
  rcases h4 with rfl | rfl | rfl | rfl <;> decide

/-- A `query|filter_type` key can only look like an empty-query key for
a genuine scope value when the query really was empty: scope names
contain no separator character. -/
theorem key_empty_of_eq {q ft sc : String} (hsc : sc ∈ validScopes)
    (h : q ++ "|" ++ ft = "|" ++ sc) : q = "" := by
  by_contra hq
  have hd : (q ++ "|" ++ ft).data = ("|" ++ sc).data := congrArg String.data h
  rw [String.data_append, String.data_append, String.data_append] at hd
  have hpipe : ("|" : String).data = ['|'] := rfl
  rw [hpipe] at hd
  cases hq' : q.data with
  | nil => exact hq (String.ext hq')
  | cons c cs =>
    rw [hq'] at hd
    simp only [List.cons_append] at hd
    have h2 : (cs ++ ['|']) ++ ft.data = sc.data := (List.cons.injEq _ _ _ _ ▸ hd).2
    have hmem : '|' ∈ sc.data := by
      rw [← h2]
      exact List.mem_append_left _ (List.mem_append_right _ (by simp))
    exact pipe_not_mem_validScopes hsc hmem

def Inv (s : AppState) : Prop :=
  s.filterTypeVar ∈ validScopes ∧
  ∀ sc, sc ∈ validScopes → s.lastFilter = some ("|" ++ sc) →
    s.filtered_emails = s.emails_data

theorem inv_apply_search_filter {s : AppState} (h : Inv s) (query : String) :
    Inv (apply_search_filter s query) := by
  simp only [apply_search_filter]
  by_cases hkey :
      s.lastFilter = some (pyLower (pyStrip query) ++ "|" ++ s.filterTypeVar)
  · rw [if_pos hkey]
    exact h
  · rw [if_neg hkey]
    by_cases hq : pyLower (pyStrip query) = ""
    · rw [if_pos hq]
      exact ⟨h.1, fun sc _ _ => rfl⟩
    · rw [if_neg hq]
      refine ⟨h.1, fun sc hsc hlf => ?_⟩
      exact absurd (key_empty_of_eq hsc (Option.some.injEq _ _ ▸ hlf)) hq

theorem fetch_emails_preserves_filter_fields (s : AppState) (sf ef : DateField) :
    (fetch_emails s sf ef).emails_data = s.emails_data ∧
    (fetch_emails s sf ef).filtered_emails = s.filtered_emails ∧
    (fetch_emails s sf ef).lastFilter = s.lastFilter ∧
    (fetch_emails s sf ef).filterTypeVar = s.filterTypeVar := by
  cases sf <;> cases ef <;> simp only [fetch_emails] <;>
    first
      | exact ⟨rfl, rfl, rfl, rfl⟩
      | (split <;> exact ⟨rfl, rfl, rfl, rfl⟩)
      | simp

theorem inv_step {s : AppState} (h : Inv s) (e : Event) : Inv (step s e) := by
  cases e with
  | clickFetch sf ef =>
    simp only [step]
    split
    · obtain ⟨h1, h2, h3, h4⟩ := fetch_emails_preserves_filter_fields s sf ef
      exact ⟨h4 ▸ h.1, fun sc hsc hlf => by
        rw [h1, h2]
        exact h.2 sc hsc (h3 ▸ hlf)⟩
    · exact h
  | keyFetch sf ef =>
    simp only [step]
    obtain ⟨h1, h2, h3, h4⟩ := fetch_emails_preserves_filter_fields s sf ef
    exact ⟨h4 ▸ h.1, fun sc hsc hlf => by
      rw [h1, h2]
      exact h.2 sc hsc (h3 ▸ hlf)⟩
  | workerDone data error status =>
    cases error with
    | some e => exact ⟨h.1, fun sc hsc hlf => h.2 sc hsc hlf⟩
    | none => exact ⟨h.1, fun sc hsc hlf => rfl⟩
  | search query =>
    have h' : Inv { s with searchVar := query } := ⟨h.1, h.2⟩
    exact inv_apply_search_filter h' query
  | setFilterType sc =>
    have h' : Inv { s with filterTypeVar := Scope.str sc } := by
      refine ⟨?_, h.2⟩
      cases sc <;> simp [Scope.str, validScopes]
    exact inv_apply_search_filter h' s.searchVar
  | refresh =>
    simp only [step]
    split
    · exact inv_apply_search_filter h s.searchVar
    · exact h
  | openDashboard =>
    simp only [step]
    split
    · exact h
    · split
      · exact h
      · exact ⟨by simp [validScopes], fun sc hsc hlf => rfl⟩

theorem inv_of_reachable {s : AppState} (h : Reachable s) : Inv s := by
  induction h with
  | init =>
    refine ⟨by simp [initState, validScopes], fun sc hsc hlf => ?_⟩
    simp [initState] at hlf
  | step s e _ ih => exact inv_step ih e

/-! ## Concrete fixtures used by the claim theorems -/

def srvWith (items : List FetchItem) : ImapServer :=
  { connect := .ok (), login := .ok (), selectOk := true,
    search := fun _ => .ids items }

def msgOkA : RawMsg :=
  { date := .parsed 3, subjectHeader := some [.txt "Hello"],
    fromHeader := none, fromParsed := some ("Bob", "bob@x.io"),
    body := .single (some [104, 105]) }

def msgOkB : RawMsg :=
  { date := .parsed 4, subjectHeader := some [.txt "Update"],
    fromHeader := none, fromParsed := some ("Ann", "ann@x.io"),
    body := .single (some [111, 107]) }

/-- A message whose Subject header carries an encoded word with a
declared charset whose bytes are invalid for it, e.g.
`Subject: =?ascii?q?=FF?=` — `decode_header` yields the part
`(bytes [0xFF], charset ascii)` and `part.decode('ascii')` raises. -/
def msgBadSubject : RawMsg :=
  { date := .parsed 3, subjectHeader := some [.bytes [255] (some "ascii")],
    fromHeader := none, fromParsed := some ("Eve", "eve@x.io"),
    body := .single none }

def recA : EmailRec :=
  { name := "Bob", email := "bob@x.io", subject := "Hello",
    body := "hi", date := 3 }

def recB : EmailRec :=
  { name := "Ann", email := "ann@x.io", subject := "Update",
    body := "ok", date := 4 }

/-- A message whose Date header is absent. -/
def msgNoDate : RawMsg :=
  { date := .absent, subjectHeader := none, fromHeader := none,
    fromParsed := some ("Eve", "eve@x.io"), body := .single none }

/-- The record `msgNoDate` normalizes to for a range starting at 42:
kept, with the start bound as its timestamp. -/
def recNoDate : EmailRec :=
  { name := "Eve", email := "eve@x.io", subject := "", body := "",
    date := 42 }

/-! ## C1 -/

/-- C1 (code bug evidence): the claim says a failure to fetch, parse
or decode any single message only skips that message.  Fetch failures
and parse failures are indeed skipped (second conjunct: the same
retrieval with a failed fetch and a failed parse interleaved still
returns both good records).  But a header-decode failure is not: with
the same two good messages around one message whose Subject bytes do
not decode in their declared charset, the whole retrieval aborts and
surfaces as a retrieval failure to the caller (first conjunct) — the
`decode_header` call inside the fetch loop is outside any per-message
try/except, contradicting the documented skip-and-continue policy. -/
theorem decodeFailureAbortsRetrieval :
    fetch_real_emails "user@example.com" "secret"
        (srvWith [.msg msgOkA, .msg msgBadSubject, .msg msgOkB]) 0 5
      = .error ("IMAP connection failed: " ++ "UnicodeDecodeError") ∧
    fetch_real_emails "user@example.com" "secret"
        (srvWith [.msg msgOkA, .fetchFail, .parseFail, .msg msgOkB]) 0 5
      = .ok [recB, recA] := by
  exact ⟨rfl, rfl⟩

/-! ## C2 -/

def c2TwoStarts : AppState :=
  step (step initState (.clickFetch (.date 0) (.date 1)))
    (.keyFetch (.date 0) (.date 1))

def c2TwoDone : AppState :=
  step (step c2TwoStarts (.workerDone [] none "Found 0 emails"))
    (.workerDone [] none "Found 0 emails")

/-- C2 counterexample: with a retrieval already in flight (after a
first valid start), a second start issued through the root-level key
bindings (`Return` / `Control-r`, which call `fetch_emails` directly)
is not rejected: it changes the state, spawns a second concurrent
worker (`inFlight = 2`), and after both workers finish two results
have been delivered (`deliveries = 2`), not one. -/
theorem secondStartNotRejected_cex :
    c2TwoStarts ≠ step initState (.clickFetch (.date 0) (.date 1)) ∧
    c2TwoStarts.inFlight = 2 ∧
    c2TwoDone.deliveries = 2 := by
  decide

/-- C2 (amended): while a retrieval is in flight the fetch button is
disabled, so a second start attempted through the button is rejected
with no state change at all; but a second start issued through the
root-level key bindings is not rejected — it runs `fetch_emails`
unconditionally and, for a valid range, spawns one more concurrent
retrieval (which will produce its own result delivery). -/
theorem secondStartButtonRejectedKeyBindingNot (s : AppState)
    (sf ef : DateField) (sd ed : Int)
    (hbtn : s.fetchButtonEnabled = false) (hrange : sd ≤ ed) :
    step s (.clickFetch sf ef) = s ∧
    (step s (.keyFetch (.date sd) (.date ed))).inFlight = s.inFlight + 1 := by
  constructor
  · simp [step, hbtn]
  · simp [step, fetch_emails, not_lt.mpr hrange]

theorem secondStartButtonRejectedKeyBindingNot_witness :
    step (step initState (.clickFetch (.date 0) (.date 1)))
        (.clickFetch (.date 2) (.date 3))
      = step initState (.clickFetch (.date 0) (.date 1)) ∧
    (step (step initState (.clickFetch (.date 0) (.date 1)))
        (.keyFetch (.date 2) (.date 3))).inFlight
      = (step initState (.clickFetch (.date 0) (.date 1))).inFlight + 1 :=
  secondStartButtonRejectedKeyBindingNot _ (.date 2) (.date 3) 2 3
    (by decide) (by decide)

/-! ## C3 -/

/-- C3: a retrieval that ends in a classified failure (the worker hands
`_on_fetch_done` a non-`None` error) leaves the installed record
collection, the visible filtered collection, the remembered filter key,
the query text and the filter scope all unchanged: the error branch
only classifies the failure and updates the status label. -/
theorem failedFetchPreservesCollectionAndFilter (s : AppState)
    (data : List EmailRec) (e status : String) :
    (step s (.workerDone data (some e) status)).emails_data = s.emails_data ∧
    (step s (.workerDone data (some e) status)).filtered_emails
      = s.filtered_emails ∧
    (step s (.workerDone data (some e) status)).lastFilter = s.lastFilter ∧
    (step s (.workerDone data (some e) status)).searchVar = s.searchVar ∧
    (step s (.workerDone data (some e) status)).filterTypeVar
      = s.filterTypeVar :=
  ⟨rfl, rfl, rfl, rfl, rfl⟩

/-! ## C4 -/

/-- C4: every successfully completed live retrieval returns
`sortByDateDesc` of the records in fetch order; the result is sorted by
timestamp descending, and for each timestamp the records carrying it
appear in their original fetch order (`base` is the pre-sort list the
fetch loop accumulated). -/
theorem completedRetrievalSortedDescStable (user pw : String)
    (srv : ImapServer) (sd ed : Int) (items : List FetchItem)
    (base recs : List EmailRec) (t : Int)
    (hs : srv.search (searchCriteria sd ed) = .ids items)
    (hb : processMessages items sd = .ok base)
    (h : fetch_real_emails user pw srv sd ed = .ok recs) :
    recs.Pairwise (fun a b => b.date ≤ a.date) ∧
    recs.filter (fun x => x.date == t) = base.filter (fun x => x.date == t) := by
  simp only [fetch_real_emails] at h
  split at h
  · simp at h
  · split at h
    · simp at h
    · split at h
      · simp at h
      · split at h
        · split at h
          · simp at h
          · rename_i items2 heq
            rw [hs] at heq
            cases heq
            split at h
            · simp at h
            · rename_i base2 heq2
              rw [hb] at heq2
              cases heq2
              have hrecs : sortByDateDesc base = recs := by simpa using h
              subst hrecs
              exact ⟨sortedDesc_sortByDateDesc base,
                filter_sortByDateDesc t base⟩
        · simp at h

theorem completedRetrievalSortedDescStable_witness :
    ([recB, recA] : List EmailRec).Pairwise (fun a b => b.date ≤ a.date) ∧
    ([recB, recA] : List EmailRec).filter (fun x => x.date == (3 : Int))
      = ([recA, recB] : List EmailRec).filter (fun x => x.date == (3 : Int)) :=
  completedRetrievalSortedDescStable "u@example.com" "pw"
    (srvWith [.msg msgOkA, .msg msgOkB]) 0 5 [.msg msgOkA, .msg msgOkB]
    [recA, recB] [recB, recA] 3 rfl rfl rfl

/-! ## C5 -/

theorem normalizeMsg_date {m : RawMsg} {sd : Int} {r : EmailRec}
    (h : normalizeMsg m sd = .ok r) : r.date = (parsedDate m).getD sd := by
  simp only [normalizeMsg] at h
  split at h
  · simp at h
  · split at h
    · simp at h
    · simp only [Except.ok.injEq] at h
      rw [← h]

/-- C5: when the fetch loop completes, it produced exactly one record
per successfully fetched-and-parsed message (the record count equals
the kept-message count), and the timestamps of the records are, in
order, the parsed Date-header values with the retrieval range's start
bound substituted wherever the header was absent or unparseable — so no
record ever lacks a timestamp and no message is dropped for a bad
date. -/
theorem normalizationTimestampNeverAbsent (items : List FetchItem) (sd : Int)
    (recs : List EmailRec) (h : processMessages items sd = .ok recs) :
    recs.length = (items.filter isMsgItem).length ∧
    recs.map (fun r => r.date)
      = (msgsOf items).map (fun m => (parsedDate m).getD sd) := by
  induction items generalizing recs with
  | nil =>
    have hr : recs = [] := by simpa [processMessages] using h.symm
    subst hr
    simp [msgsOf]
  | cons i rest ih =>
    cases i with
    | fetchFail =>
      obtain ⟨ih1, ih2⟩ := ih recs h
      simpa [isMsgItem, msgsOf, List.filter_cons] using ⟨ih1, ih2⟩
    | parseFail =>
      obtain ⟨ih1, ih2⟩ := ih recs h
      simpa [isMsgItem, msgsOf, List.filter_cons] using ⟨ih1, ih2⟩
    | msg m =>
      simp only [processMessages] at h
      split at h
      · simp at h
      · rename_i r hr
        split at h
        · simp at h
        · rename_i rs hrest
          simp only [Except.ok.injEq] at h
          subst h
          obtain ⟨ih1, ih2⟩ := ih rs hrest
          refine ⟨?_, ?_⟩
          · simpa [isMsgItem, List.filter_cons] using ih1
          · simpa [msgsOf, ih2] using normalizeMsg_date hr

theorem normalizationTimestampNeverAbsent_witness :
    [recNoDate].length = ([.msg msgNoDate, .fetchFail].filter isMsgItem).length ∧
    [recNoDate].map (fun r => r.date)
      = (msgsOf [.msg msgNoDate, .fetchFail]).map
          (fun m => (parsedDate m).getD 42) :=
  normalizationTimestampNeverAbsent [.msg msgNoDate, .fetchFail] 42
    [recNoDate] rfl

/-! ## C6 -/

/-- C6: for a valid range (`start ≤ end`), the search criteria sent to
the server (the one argument `fetch_real_emails` passes to
`srv.search`) have the inclusive start date as lower bound and
`end + 1 day` as the exclusive `BEFORE` upper bound. -/
theorem searchCriteriaWidensUpperBound (sd ed : Int) (_h : sd ≤ ed) :
    (searchCriteria sd ed).since = sd ∧
    (searchCriteria sd ed).before = ed + 1 :=
  ⟨rfl, rfl⟩

theorem searchCriteriaWidensUpperBound_witness :
    (searchCriteria 10 12).since = 10 ∧ (searchCriteria 10 12).before = 13 :=
  searchCriteriaWidensUpperBound 10 12 (by decide)

/-! ## C7 -/

/-- A single-part message whose plain-text body is 201 characters. -/
def msg201 : RawMsg :=
  { date := .parsed 7, subjectHeader := some [.txt "Long"],
    fromHeader := none, fromParsed := some ("Bob", "bob@x.io"),
    body := .single (some (List.replicate 201 97)) }

/-- The record `msg201` normalizes to: its stored body is the
200-character preview plus the ellipsis marker. -/
def rec201 : EmailRec :=
  { name := "Bob", email := "bob@x.io", subject := "Long",
    body := String.mk (List.replicate 200 'a') ++ "...", date := 7 }

/-- C7 counterexample: for a message whose extracted body has 201
characters (well inside the 2000-character budget), the record keeps
only the 203-character ellipsis preview, the detail window displays
exactly that stored preview, and the preview differs from the full
2000-char-capped body — so the full body is not available for detail
views. -/
theorem detailViewShowsTruncatedPreview_cex :
    processMessages [.msg msg201] 0 = .ok [rec201] ∧
    (extract_email_body msg201.body).length = 201 ∧
    rec201.body.length = 203 ∧
    on_email_double_click_body [rec201]
        [rec201.name, rec201.email, "2024-01-01", "2024-01-02",
          rec201.subject, ""] = rec201.body ∧
    rec201.body ≠ extract_email_body msg201.body := by
  set_option maxRecDepth 8000 in
  refine ⟨rfl, by decide, by decide, rfl, by decide⟩

/-- C7 (amended): the body retained in a normalized record is exactly
the 200-character ellipsis-truncated preview of the 2000-char-capped
extracted body (so the two coincide only when the extracted body is at
most 200 characters), and the detail view displays exactly this stored
field for the record it looks up. -/
theorem recordBodyIsPreviewOnly (m : RawMsg) (sd : Int) (r : EmailRec)
    (l : List EmailRec) (vs : List String)
    (h : normalizeMsg m sd = .ok r)
    (hfind : l.find? (fun x => x.name == vs.getD 0 ""
        && x.email == vs.getD 1 "" && x.subject == vs.getD 4 "") = some r) :
    r.body = bodyPreview (extract_email_body m.body) ∧
    on_email_double_click_body l vs = r.body := by
  constructor
  · simp only [normalizeMsg] at h
    split at h
    · simp at h
    · split at h
      · simp at h
      · simp only [Except.ok.injEq] at h
        rw [← h]
  · simp only [on_email_double_click_body, hfind]

set_option maxRecDepth 8000 in
theorem recordBodyIsPreviewOnly_witness :
    rec201.body = bodyPreview (extract_email_body msg201.body) ∧
    on_email_double_click_body [rec201]
        [rec201.name, rec201.email, "s", "e", rec201.subject, ""]
      = rec201.body :=
  recordBodyIsPreviewOnly msg201 0 rec201 [rec201]
    [rec201.name, rec201.email, "s", "e", rec201.subject, ""]
    rfl rfl

/-! ## C9 -/

def srvSearchBad : ImapServer :=
  { connect := .ok (), login := .ok (), selectOk := true,
    search := fun _ => .bad }

def srvConnFail (m : String) : ImapServer :=
  { connect := .error m, login := .ok (), selectOk := true,
    search := fun _ => .ids [] }

def srvAuthFail (m : String) : ImapServer :=
  { connect := .ok (), login := .error m, selectOk := true,
    search := fun _ => .ids [] }

/-- C9 counterexample: a server-side search failure and a transport
failure whose message happens to read the same produce literally
identical retrieval outcomes, and even for a typical distinct transport
message the caller's classification maps both to the same generic
branch — search failure and connection failure are not distinguishable
outcomes. -/
theorem searchAndConnectionFailuresCollapse_cex :
    fetch_real_emails "u@example.com" "pw" srvSearchBad 0 1
      = fetch_real_emails "u@example.com" "pw"
          (srvConnFail "IMAP search failed") 0 1 ∧
    fetch_real_emails "u@example.com" "pw" srvSearchBad 0 1
      = .error "IMAP connection failed: IMAP search failed" ∧
    classifyError "IMAP connection failed: IMAP search failed"
      = classifyError "IMAP connection failed: getaddrinfo failed" := by
  exact ⟨rfl, rfl, by decide⟩

theorem authWrapNeConnWrap (t u : String) :
    ("IMAP authentication/search error: " ++ t)
      ≠ ("IMAP connection failed: " ++ u) := by
  intro h
  have hd := congrArg String.data h
  rw [String.data_append, String.data_append] at hd
  have h6 := congrArg (List.take 6) hd
  rw [List.take_append_of_le_length (by decide),
    List.take_append_of_le_length (by decide)] at h6
  exact absurd h6 (by decide)

/-- C9 (amended): a login rejection is wrapped with its own prefix
(`IMAP authentication/search error:`) and therefore never coincides
with a search or connection failure, and the one with the standard
server marker is routed to the dedicated authentication dialog; but a
failed search command and a transport failure are both wrapped with the
same `IMAP connection failed:` prefix and both take the caller's single
generic branch, distinguishable only by the embedded message text. -/
theorem authDistinguishedSearchConnCollapsed (ta tc : String) :
    fetch_real_emails "u@example.com" "pw" (srvAuthFail ta) 0 1
      = .error ("IMAP authentication/search error: " ++ ta) ∧
    fetch_real_emails "u@example.com" "pw" srvSearchBad 0 1
      = .error ("IMAP connection failed: " ++ "IMAP search failed") ∧
    fetch_real_emails "u@example.com" "pw" (srvConnFail tc) 0 1
      = .error ("IMAP connection failed: " ++ tc) ∧
    ("IMAP authentication/search error: " ++ ta)
      ≠ ("IMAP connection failed: " ++ tc) ∧
    ("IMAP authentication/search error: " ++ ta)
      ≠ ("IMAP connection failed: " ++ "IMAP search failed") ∧
    classifyError ("IMAP authentication/search error: "
        ++ "[AUTHENTICATIONFAILED] Invalid credentials") = .authFailed ∧
    classifyError ("IMAP connection failed: " ++ "IMAP search failed")
      = .generic ∧
    classifyError ("IMAP connection failed: " ++ "getaddrinfo failed")
      = .generic :=
  ⟨rfl, rfl, rfl, authWrapNeConnWrap ta tc, authWrapNeConnWrap ta _,
    by decide, by decide, by decide⟩

/-! ## C10 -/

/-- C10: All-scope matching reads the cached blob when present and
otherwise computes the same expression on the fly, so a record stamped
by `_build_search_cache` matches a query exactly when the uncached
record does, in every scope; consequently filtering a cached collection
selects exactly the records whose uncached versions match. -/
theorem cachedBlobEquivalentToOnTheFly (q ft : String) (r : EmailRec)
    (l : List EmailRec) :
    matchesRec q ft { r with searchBlob := some (cacheBlob r) }
      = matchesRec q ft { r with searchBlob := none } ∧
    cacheBlob r = fallbackBlob r ∧
    (build_search_cache l).filter (matchesRec q ft)
      = (l.filter (fun x =>
          matchesRec q ft { x with searchBlob := none })).map
            (fun x => { x with searchBlob := some (cacheBlob x) }) := by
  refine ⟨rfl, rfl, ?_⟩
  simp only [build_search_cache]
  rw [List.filter_map]
  rfl

/-! ## C8 -/

/-- C8: in every reachable application state — any installed
collection, any selected scope, any history of prior queries — applying
the search filter with the empty query string leaves the full
unfiltered collection visible.  The `_last_filter` early return is
covered by the reachability invariant: when the remembered key records
an empty query, the visible collection is already the full one. -/
theorem emptyQueryReturnsFullCollection (s : AppState) (h : Reachable s) :
    (apply_search_filter s "").filtered_emails = s.emails_data := by
  obtain ⟨h1, h2⟩ := inv_of_reachable h
  simp only [apply_search_filter]
  by_cases hkey :
      s.lastFilter = some (pyLower (pyStrip "") ++ "|" ++ s.filterTypeVar)
  · rw [if_pos hkey]
    exact h2 s.filterTypeVar h1 hkey
  · rw [if_neg hkey]
    have hq : pyLower (pyStrip "") = "" := rfl
    rw [if_pos hq]

def c8State : AppState :=
  step (step (step initState (.workerDone [recA, recB] none "Found 2 emails"))
    (.search "hello")) (.setFilterType .subjectScope)

theorem emptyQueryReturnsFullCollection_witness :
    (apply_search_filter c8State "").filtered_emails = c8State.emails_data :=
  emptyQueryReturnsFullCollection c8State
    (Reachable.step _ _ (Reachable.step _ _ (Reachable.step _ _ Reachable.init)))

end EmailDash
